import Mathlib

/-!
Verification of the polling job monitor (`qiskit_ibm_provider/jupyter/dashboard/
watcher_monitor.py`) and of the composite-job coordinator properties described
in the repository specification.

The monitor `_job_checker` is embedded shallowly: each loop iteration consumes
one `PollEnv`, which records the outcome (value or raised exception) of the
fallible remote calls the iteration may perform (`job.status()`,
`job.queue_position()`, `job.queue_info()`, `job.scheduling_mode()`).  The
loop body, including its `try`/`except` structure and the order of the
mutations of the local variables, is translated line by line into `tryBody`
(the `try` block, returning the partially-mutated state on an exception) and
`step` (the `except` handler around it).  `runFrom` is the `while` loop,
driven by a finite oracle list of poll outcomes.
-/

/-- Status enum of the `qiskit.providers.jobstatus.JobStatus` class consumed by
the source (an external collaborator of this repository); its members and their
`name`/`value` attributes are fixed by that library. -/
inductive JobStatus where
  | INITIALIZING
  | QUEUED
  | VALIDATING
  | RUNNING
  | CANCELLED
  | DONE
  | ERROR
deriving DecidableEq, Repr

/-- The Python `status.name` attribute. -/
def JobStatus.name : JobStatus → String
  | .INITIALIZING => "INITIALIZING"
  | .QUEUED => "QUEUED"
  | .VALIDATING => "VALIDATING"
  | .RUNNING => "RUNNING"
  | .CANCELLED => "CANCELLED"
  | .DONE => "DONE"
  | .ERROR => "ERROR"

/-- The Python `status.value` attribute. -/
def JobStatus.value : JobStatus → String
  | .INITIALIZING => "job is being initialized"
  | .QUEUED => "job is queued"
  | .VALIDATING => "job is being validated"
  | .RUNNING => "job is actively running"
  | .CANCELLED => "job has been cancelled"
  | .DONE => "job has successfully run"
  | .ERROR => "job incurred error"

/-- The status names on which the `while` loop of `_job_checker` exits
(`watcher_monitor.py` line 50). -/
def terminalNames : List String := ["DONE", "CANCELLED", "ERROR"]

/-- Result of `job.queue_info()`: only the `estimated_start_time` field is read
by the monitor; the timestamp is abstracted as a natural number. -/
structure QueueInfo where
  estimated_start_time : Option Nat
deriving DecidableEq, Repr

/-- Modelled from the spec: the helper `duration_difference` from
`qiskit_ibm_provider/utils/converters.py` is not under `src/`; it renders an
estimated start time as a human-readable duration string.  No claim depends on
the rendering itself, so it is modelled as an injective rendering of the
abstracted timestamp. -/
def duration_difference (t : Nat) : String := "in " ++ toString t

/-- Decidable equality for `Except`, used to evaluate the model on concrete
poll outcomes. -/
instance {ε α : Type} [DecidableEq ε] [DecidableEq α] : DecidableEq (Except ε α) := fun
  | .ok a, .ok b =>
    if h : a = b then .isTrue (by rw [h])
    else .isFalse (by intro he; cases he; exact h rfl)
  | .ok _, .error _ => .isFalse (by intro h; cases h)
  | .error _, .ok _ => .isFalse (by intro h; cases h)
  | .error a, .error b =>
    if h : a = b then .isTrue (by rw [h])
    else .isFalse (by intro he; cases he; exact h rfl)

/-- Outcome of the fallible remote calls available to one iteration of the
polling loop.  `Except Unit v` is the Python call: `.error ()` means the call
raises, `.ok v` means it returns `v`. -/
structure PollEnv where
  statusR : Except Unit JobStatus
  queuePosR : Except Unit (Option Nat)
  queueInfoR : Except Unit (Option QueueInfo)
  schedModeR : Except Unit (Option String)
deriving DecidableEq, Repr

/-- Python rendering of `queue_pos` inside the f-string
`f"{status.name} ({queue_pos})"`: `None` prints as `"None"`. -/
def posStr : Option Nat → String
  | none => "None"
  | some n => toString n

/-- The third field of an update tuple is either the integer `0` (non-QUEUED
updates, and the final failure update) or an estimated-time string (QUEUED
updates), matching the dynamically-typed Python tuple. -/
inductive EstOr0 where
  | num (n : Nat)
  | str (s : String)
deriving DecidableEq, Repr

/-- The update tuple `(job_id, display_text, estimated_time_or_0,
raw_status_value)` passed to `watcher.update_single_job`. -/
structure Update where
  job_id : String
  text : String
  est : EstOr0
  value : String
deriving DecidableEq, Repr

/-- The local variables of `_job_checker` that persist across loop iterations
(`watcher_monitor.py` lines 45-50): the `status` variable itself,
`prev_status_name`, `prev_queue_pos`, `interval`, `exception_count` and
`prev_est_time`. -/
structure CheckerState where
  status : JobStatus
  prev_status_name : Option String
  prev_queue_pos : Option Nat
  interval : Nat
  exception_count : Nat
  prev_est_time : String
deriving DecidableEq, Repr

/-- Initial values of the loop variables on entry to `_job_checker` with the
given initial job status. -/
def initState (status : JobStatus) : CheckerState :=
  { status := status
    prev_status_name := none
    prev_queue_pos := none
    interval := 2
    exception_count := 0
    prev_est_time := "" }

/-- The `interval` assignment of the QUEUED branch:
`max(queue_pos, 2) if queue_pos is not None else 2`. -/
def queuedInterval : Option Nat → Nat
  | some q => max q 2
  | none => 2

/-- The `try` block of one loop iteration (`watcher_monitor.py` lines 52-87).
Returns `.ok (state, emitted update)` on normal completion, and
`.error state` when one of the remote calls raises, where `state` carries the
mutations already performed before the raise (in particular `status` is
already updated and `exception_count` already reset to `0` once
`job.status()` has returned). -/
def tryBody (jid : String) (s : CheckerState) (p : PollEnv) :
    Except CheckerState (CheckerState × Option Update) :=
  match p.statusR with
  | .error _ => .error s
  | .ok st =>
    let s := { s with status := st, exception_count := 0 }
    if st.name = "QUEUED" then
      match p.queuePosR with
      | .error _ => .error s
      | .ok qp =>
        if qp ≠ s.prev_queue_pos then
          match p.queueInfoR with
          | .error _ => .error s
          | .ok qi =>
            let es : String × CheckerState :=
              match qi with
              | some info =>
                match info.estimated_start_time with
                | some t =>
                  let e := duration_difference t
                  (e, { s with prev_est_time := e })
                | none => (s.prev_est_time, s)
              | none => (s.prev_est_time, s)
            let upd : Update :=
              { job_id := jid
                text := st.name ++ " (" ++ posStr qp ++ ")"
                est := .str es.1
                value := st.value }
            .ok ({ es.2 with interval := queuedInterval qp, prev_queue_pos := qp },
                 some upd)
        else
          .ok (s, none)
    else
      if some st.name ≠ s.prev_status_name then
        if st.name = "RUNNING" then
          match p.schedModeR with
          | .error _ => .error s
          | .ok md =>
            let msg : String :=
              match md with
              | some m =>
                if m = "" then st.name
                else st.name ++ " [" ++ (m.front.toUpper).toString ++ "]"
              | none => st.name
            .ok ({ s with interval := 2, prev_status_name := some st.name },
                 some { job_id := jid, text := msg, est := .num 0, value := st.value })
        else
          .ok ({ s with interval := 2, prev_status_name := some st.name },
               some { job_id := jid, text := st.name, est := .num 0, value := st.value })
      else
        .ok (s, none)

/-- The final update emitted on the fifth consecutive query failure
(`watcher_monitor.py` line 92). -/
def couldNotQueryUpdate (jid : String) : Update :=
  { job_id := jid, text := "NA", est := .num 0, value := "Could not query job." }

/-- The estimated-time string used by the QUEUED branch when the queue
position changed: freshly computed from `queue_info.estimated_start_time` when
present, otherwise the previously remembered string (`prev_est_time`). -/
def estOf (s : CheckerState) (qi : Option QueueInfo) : String :=
  match qi with
  | some info =>
    match info.estimated_start_time with
    | some t => duration_difference t
    | none => s.prev_est_time
  | none => s.prev_est_time

/-- The display text of a RUNNING status-change update, as a function of the
result of `job.scheduling_mode()`: the bare name when the mode is falsy
(`None` or the empty string), otherwise decorated with the first character
uppercased in square brackets. -/
def runningMsg (md : Option String) : String :=
  match md with
  | some m =>
    if m = "" then "RUNNING"
    else "RUNNING" ++ " [" ++ (m.front.toUpper).toString ++ "]"
  | none => "RUNNING"

/-- Result of one loop iteration: either the loop continues with a new state
(having emitted at most one update), or the thread terminates via `sys.exit()`
after emitting the failure update. -/
inductive StepOut where
  | cont (s : CheckerState) (u : Option Update)
  | exit (u : Update)
deriving DecidableEq, Repr

/-- One full iteration of the polling loop: the `try` block wrapped in the
`except Exception` handler (`watcher_monitor.py` lines 89-94). -/
def step (jid : String) (s : CheckerState) (p : PollEnv) : StepOut :=
  match tryBody jid s p with
  | .ok su => .cont su.1 su.2
  | .error s' =>
    let c := s'.exception_count + 1
    if c = 5 then .exit (couldNotQueryUpdate jid)
    else .cont { s' with exception_count := c } none

/-- Whether an iteration emitted an update to the watcher. -/
def StepOut.emitsUpdate : StepOut → Bool
  | .cont _ (some _) => true
  | .cont _ none => false
  | .exit _ => true

/-- The `interval` variable after an iteration (`0` when the iteration
terminated the thread, in which case no further sleep happens). -/
def StepOut.stateInterval : StepOut → Nat
  | .cont s _ => s.interval
  | .exit _ => 0

/-- Outcome of running the polling loop against a finite oracle of poll
outcomes: the loop exited normally on a terminal status (`finished`), the
thread called `sys.exit()` (`exited`), or the oracle was exhausted while the
loop would keep polling (`outOfPolls`).  `finished`/`exited` record the
updates emitted and the number of iterations (status queries) performed. -/
inductive RunResult where
  | finished (updates : List Update) (queries : Nat)
  | exited (updates : List Update) (queries : Nat)
  | outOfPolls (updates : List Update) (final : CheckerState)
deriving DecidableEq, Repr

/-- Accounts one more loop iteration emitting `u` in front of the result of
the remaining iterations. -/
def RunResult.prepend (u : Option Update) : RunResult → RunResult
  | .finished us q => .finished (u.toList ++ us) (q + 1)
  | .exited us q => .exited (u.toList ++ us) (q + 1)
  | .outOfPolls us f => .outOfPolls (u.toList ++ us) f

/-- Adds `k` silent loop iterations in front of a run result. -/
def RunResult.addQueries (k : Nat) : RunResult → RunResult
  | .finished us q => .finished us (q + k)
  | .exited us q => .exited us (q + k)
  | .outOfPolls us f => .outOfPolls us f

/-- The updates emitted along a run. -/
def RunResult.updates : RunResult → List Update
  | .finished us _ => us
  | .exited us _ => us
  | .outOfPolls us _ => us

/-- The `while status.name not in ["DONE", "CANCELLED", "ERROR"]` loop of
`_job_checker`, from an arbitrary state of the loop variables. -/
def runFrom (jid : String) : CheckerState → List PollEnv → RunResult
  | s, polls =>
    if s.status.name ∈ terminalNames then .finished [] 0
    else
      match polls with
      | [] => .outOfPolls [] s
      | p :: rest =>
        match step jid s p with
        | .exit u => .exited [u] 1
        | .cont s' u => RunResult.prepend u (runFrom jid s' rest)

/-- The `_job_checker` entry point: run the polling loop from the initial
state for the given initial status, against the given oracle of poll
outcomes. -/
def job_checker (jid : String) (status : JobStatus) (polls : List PollEnv) :
    RunResult :=
  runFrom jid (initState status) polls

/-- A poll on which `job.status()` raises. -/
def raiseEnv : PollEnv :=
  { statusR := .error ()
    queuePosR := .error ()
    queueInfoR := .error ()
    schedModeR := .error () }

/-- A poll on which `job.status()` returns `QUEUED` and `job.queue_position()`
returns `None`; from a state whose recorded queue position is also `None` this
iteration emits nothing. -/
def quietQueuedEnv : PollEnv :=
  { statusR := .ok .QUEUED
    queuePosR := .ok none
    queueInfoR := .ok none
    schedModeR := .ok none }

/-- A poll observing `QUEUED` at queue position 10, with no queue info. -/
def queuedAt10Env : PollEnv :=
  { statusR := .ok .QUEUED
    queuePosR := .ok (some 10)
    queueInfoR := .ok none
    schedModeR := .ok none }

/-- A poll observing `RUNNING` with no scheduling mode. -/
def runningEnv : PollEnv :=
  { statusR := .ok .RUNNING
    queuePosR := .ok none
    queueInfoR := .ok none
    schedModeR := .ok none }

/-- Modelled from the spec: the status-precedence order of the composite-job
coordinator (`IBMCompositeJob`, whose implementation is not under `src/`):
`ERROR > CANCELLED > RUNNING > QUEUED > VALIDATING > INITIALIZING > DONE`,
highest wins. -/
def statusPrecedence : JobStatus → Nat
  | .ERROR => 6
  | .CANCELLED => 5
  | .RUNNING => 4
  | .QUEUED => 3
  | .VALIDATING => 2
  | .INITIALIZING => 1
  | .DONE => 0

/-- Picks the higher-precedence of two statuses (first argument wins ties). -/
def pickStatus (a b : JobStatus) : JobStatus :=
  if statusPrecedence a < statusPrecedence b then b else a

/-- Modelled from the spec: the aggregated status of a composite job over the
(nonempty) list of its sub-job statuses — the maximum-precedence status,
highest wins (`IBMCompositeJob.status()`, not under `src/`). -/
def compositeStatus : List JobStatus → JobStatus
  | [] => .DONE
  | x :: xs => xs.foldl pickStatus x

/-- Modelled from the spec: the chunking core of the job splitter
(the circuit splitting of `IBMCompositeJob`, not under `src/`): contiguous chunks
of at most `m` items, in the original order.  The `m = 0` case never arises
under the precondition `M ≥ 1` of the spec. -/
def splitChunks {α : Type} : Nat → List α → List (List α)
  | _, [] => []
  | 0, l => [l]
  | m + 1, x :: xs => (x :: xs.take m) :: splitChunks (m + 1) (xs.drop m)
termination_by _ l => l.length
decreasing_by simp; omega

/-- Modelled from the spec: the job splitter entry point — an empty work-item
sequence is an `InvalidInput` error, otherwise the items are split into
contiguous chunks of size at most `m`. -/
def split_circuits {α : Type} (items : List α) (m : Nat) :
    Except String (List (List α)) :=
  if items.isEmpty then .error "InvalidInput" else .ok (splitChunks m items)

/-- A per-item result marker of an aggregate composite result. -/
structure PerItemResult where
  success : Bool
deriving DecidableEq, Repr

/-- Modelled from the spec: one sub-job of a composite job, covering the
inclusive original-index range `[start_index, end_index]`, with its remote id,
current status, per-item results (meaningful when `DONE`) and the formatted
cause of its failure (when not `DONE`). -/
structure SubJobModel where
  start_index : Nat
  end_index : Nat
  job_id : String
  status : JobStatus
  item_results : List PerItemResult
  error_cause : String
deriving DecidableEq, Repr

/-- Number of work items covered by the chunk of a sub-job. -/
def chunkSize (s : SubJobModel) : Nat := s.end_index + 1 - s.start_index

/-- Modelled from the spec: the error line of `error_message()` for one
non-DONE sub-job: `"Circuits i-j: Job <id> failed: <cause>"`. -/
def sub_job_error_line (s : SubJobModel) : String :=
  "Circuits " ++ toString s.start_index ++ "-" ++ toString s.end_index ++
    ": Job " ++ s.job_id ++ " failed: " ++ s.error_cause

/-- Modelled from the spec: `IBMCompositeJob.error_message()` (not under
`src/`) — one attribution line per sub-job that is not `DONE`. -/
def error_message (subs : List SubJobModel) : String :=
  String.intercalate "\n"
    ((subs.filter (fun s => s.status ≠ .DONE)).map sub_job_error_line)

/-- An aggregate composite result: overall success flag and per-item results
in original order. -/
structure AggregateResult where
  success : Bool
  results : List PerItemResult
deriving DecidableEq, Repr

/-- Per-item results contributed by one sub-job to a partial aggregate: its
own results when `DONE`, otherwise one failure marker per covered item. -/
def sub_job_item_results (s : SubJobModel) : List PerItemResult :=
  if s.status = .DONE then s.item_results
  else List.replicate (chunkSize s) { success := false }

/-- Modelled from the spec: `IBMCompositeJob.result(partial)` (not under
`src/`).  When `partialFlag` is false and some sub-job is not `DONE`, fails
with a `JobFailureError` carrying the aggregated `error_message()`; otherwise
concatenates per-item results in original order, with explicit failure markers
for the items of failed sub-jobs, and an overall success flag that is true only when
every item succeeded. -/
def composite_result (partialFlag : Bool) (subs : List SubJobModel) :
    Except String AggregateResult :=
  if ¬ partialFlag ∧ subs.any (fun s => s.status ≠ .DONE) then
    .error ("JobFailureError: " ++ error_message subs)
  else
    let rs := subs.flatMap sub_job_item_results
    .ok { success := rs.all (fun r => r.success), results := rs }

/-- The concrete scenario of C8: 4 work items split 2-and-2, first chunk
succeeded, second chunk failed entirely. -/
def c8SubJobs : List SubJobModel :=
  [{ start_index := 0, end_index := 1, job_id := "job0", status := .DONE,
     item_results := [{ success := true }, { success := true }],
     error_cause := "" },
   { start_index := 2, end_index := 3, job_id := "job1", status := .ERROR,
     item_results := [],
     error_cause := "Job failed. Error code: 1234" }]

theorem runFrom_nil (jid : String) (s : CheckerState) :
    runFrom jid s [] =
      if s.status.name ∈ terminalNames then .finished [] 0
      else .outOfPolls [] s := rfl

theorem runFrom_cons (jid : String) (s : CheckerState) (p : PollEnv)
    (rest : List PollEnv) :
    runFrom jid s (p :: rest) =
      if s.status.name ∈ terminalNames then .finished [] 0
      else
        match step jid s p with
        | .exit u => .exited [u] 1
        | .cont s' u => RunResult.prepend u (runFrom jid s' rest) := rfl

theorem runFrom_terminal (jid : String) (s : CheckerState)
    (polls : List PollEnv) (h : s.status.name ∈ terminalNames) :
    runFrom jid s polls = .finished [] 0 := by
  cases polls with
  | nil => rw [runFrom_nil, if_pos h]
  | cons p rest => rw [runFrom_cons, if_pos h]

theorem step_raiseEnv (jid : String) (s : CheckerState) :
    step jid s raiseEnv =
      if s.exception_count + 1 = 5 then .exit (couldNotQueryUpdate jid)
      else .cont { s with exception_count := s.exception_count + 1 } none := rfl

theorem RunResult.addQueries_zero (r : RunResult) : r.addQueries 0 = r := by
  cases r <;> rfl

theorem RunResult.addQueries_addQueries (r : RunResult) (a b : Nat) :
    (r.addQueries a).addQueries b = r.addQueries (a + b) := by
  cases r <;> simp [RunResult.addQueries] <;> omega

theorem RunResult.prepend_none (r : RunResult) :
    RunResult.prepend none r = r.addQueries 1 := by
  cases r <;> rfl

theorem runFrom_raise_streak (jid : String) :
    ∀ (k : Nat) (s : CheckerState) (rest : List PollEnv),
      s.status.name ∉ terminalNames → s.exception_count + (k + 1) = 5 →
      runFrom jid s (List.replicate (k + 1) raiseEnv ++ rest) =
        .exited [couldNotQueryUpdate jid] (k + 1) := by
  intro k
  induction k with
  | zero =>
    intro s rest hterm hcount
    rw [List.replicate_succ, List.replicate_zero, List.cons_append,
      List.nil_append, runFrom_cons, if_neg hterm, step_raiseEnv,
      if_pos (by omega)]
  | succ k ih =>
    intro s rest hterm hcount
    rw [List.replicate_succ, List.cons_append, runFrom_cons, if_neg hterm,
      step_raiseEnv, if_neg (by omega)]
    show RunResult.prepend none
      (runFrom jid { s with exception_count := s.exception_count + 1 }
        (List.replicate (k + 1) raiseEnv ++ rest)) = _
    rw [ih { s with exception_count := s.exception_count + 1 } rest hterm
      (by simp; omega), RunResult.prepend_none]
    simp [RunResult.addQueries]

theorem runFrom_raise_swallow (jid : String) :
    ∀ (j : Nat) (s : CheckerState) (rest : List PollEnv),
      s.status.name ∉ terminalNames → s.exception_count + j < 5 →
      runFrom jid s (List.replicate j raiseEnv ++ rest) =
        (runFrom jid { s with exception_count := s.exception_count + j }
          rest).addQueries j := by
  intro j
  induction j with
  | zero =>
    intro s rest hterm hcount
    rw [RunResult.addQueries_zero]
    rfl
  | succ j ih =>
    intro s rest hterm hcount
    rw [List.replicate_succ, List.cons_append, runFrom_cons, if_neg hterm,
      step_raiseEnv, if_neg (by omega)]
    show RunResult.prepend none
      (runFrom jid { s with exception_count := s.exception_count + 1 }
        (List.replicate j raiseEnv ++ rest)) = _
    rw [ih { s with exception_count := s.exception_count + 1 } rest hterm
      (by simp; omega)]
    rw [RunResult.prepend_none, RunResult.addQueries_addQueries]
    have h1 : s.exception_count + 1 + j = s.exception_count + (j + 1) := by omega
    simp only [h1]

/-- C1: run against a job whose status query raises on every poll (and started
on a non-terminal status), `_job_checker` emits exactly one "could not query
job" update, does so on the 5th consecutive query failure, and then stops
polling permanently — no matter how many further polls are available.  A
successful query in between resets the failure counter to zero: after 4
failures, one successful (quiet) poll, and then failures again, the final
update comes only on the 5th consecutive failure after the success, i.e. the
10th query overall. -/
theorem monitor_failure_threshold (jid : String) (init : JobStatus) (n : Nat)
    (hterm : init.name ∉ terminalNames) :
    job_checker jid init (List.replicate (5 + n) raiseEnv) =
      .exited [couldNotQueryUpdate jid] 5 ∧
    job_checker jid init
        (List.replicate 4 raiseEnv ++ [quietQueuedEnv] ++
          List.replicate (5 + n) raiseEnv) =
      .exited [couldNotQueryUpdate jid] 10 := by
  constructor
  · show runFrom jid (initState init) _ = _
    rw [List.replicate_add]
    exact runFrom_raise_streak jid 4 (initState init) _ hterm rfl
  · show runFrom jid (initState init) _ = _
    rw [List.append_assoc,
      runFrom_raise_swallow jid 4 (initState init) _ hterm (by simp [initState])]
    rw [List.singleton_append, runFrom_cons]
    have hterm2 :
        ({ initState init with exception_count := (initState init).exception_count + 4 } :
          CheckerState).status.name ∉ terminalNames := hterm
    rw [if_neg hterm2]
    have hstep :
        step jid
          { initState init with
            exception_count := (initState init).exception_count + 4 }
          quietQueuedEnv = .cont (initState .QUEUED) none := rfl
    rw [hstep]
    show (RunResult.prepend none
      (runFrom jid (initState .QUEUED) (List.replicate (5 + n) raiseEnv))).addQueries 4 = _
    rw [List.replicate_add,
      runFrom_raise_streak jid 4 (initState .QUEUED) _ (by decide) rfl,
      RunResult.prepend_none, RunResult.addQueries_addQueries]
    rfl

/-- Witness for C1 at a concrete job id, initial status and poll count. -/
theorem monitor_failure_threshold_witness :
    job_checker "job1" .INITIALIZING (List.replicate 5 raiseEnv) =
      .exited [couldNotQueryUpdate "job1"] 5 ∧
    job_checker "job1" .INITIALIZING
        (List.replicate 4 raiseEnv ++ [quietQueuedEnv] ++
          List.replicate 5 raiseEnv) =
      .exited [couldNotQueryUpdate "job1"] 10 :=
  monitor_failure_threshold "job1" .INITIALIZING 0 (by decide)

theorem step_ok_queued (jid : String) (s : CheckerState) (p : PollEnv)
    (qp : Option Nat) (qi : Option QueueInfo)
    (hp : p.statusR = .ok .QUEUED) (hqp : p.queuePosR = .ok qp)
    (hqi : p.queueInfoR = .ok qi) :
    step jid s p =
      if qp ≠ s.prev_queue_pos then
        .cont
          { s with status := .QUEUED, exception_count := 0,
                   prev_est_time := estOf s qi,
                   interval := queuedInterval qp, prev_queue_pos := qp }
          (some { job_id := jid, text := "QUEUED (" ++ posStr qp ++ ")",
                  est := .str (estOf s qi), value := JobStatus.QUEUED.value })
      else .cont { s with status := .QUEUED, exception_count := 0 } none := by
  obtain ⟨sR, qpR, qiR, smR⟩ := p
  dsimp only at hp hqp hqi
  subst hp; subst hqp; subst hqi
  by_cases h : qp = s.prev_queue_pos
  · simp [step, tryBody, JobStatus.name, h]
  · cases qi with
    | none => simp [step, tryBody, JobStatus.name, JobStatus.value, h, estOf]
    | some info =>
      cases hinfo : info.estimated_start_time with
      | none =>
        simp [step, tryBody, JobStatus.name, JobStatus.value, h, estOf, hinfo]
      | some t =>
        simp [step, tryBody, JobStatus.name, JobStatus.value, h, estOf, hinfo]

theorem step_ok_running (jid : String) (s : CheckerState) (p : PollEnv)
    (md : Option String)
    (hp : p.statusR = .ok .RUNNING) (hm : p.schedModeR = .ok md) :
    step jid s p =
      if some "RUNNING" ≠ s.prev_status_name then
        .cont
          { s with status := .RUNNING, exception_count := 0, interval := 2,
                   prev_status_name := some "RUNNING" }
          (some { job_id := jid, text := runningMsg md, est := .num 0,
                  value := JobStatus.RUNNING.value })
      else .cont { s with status := .RUNNING, exception_count := 0 } none := by
  obtain ⟨sR, qpR, qiR, smR⟩ := p
  dsimp only at hp hm
  subst hp; subst hm
  by_cases h : some "RUNNING" = s.prev_status_name
  · simp [step, tryBody, JobStatus.name, h]
  · cases md with
    | none =>
      simp [step, tryBody, JobStatus.name, JobStatus.value, h, runningMsg]
    | some m =>
      by_cases hm0 : m = ""
      · simp [step, tryBody, JobStatus.name, JobStatus.value, h, runningMsg, hm0]
      · simp [step, tryBody, JobStatus.name, JobStatus.value, h, runningMsg, hm0]

theorem step_ok_other (jid : String) (s : CheckerState) (p : PollEnv)
    (st : JobStatus) (hp : p.statusR = .ok st)
    (hq : st.name ≠ "QUEUED") (hr : st.name ≠ "RUNNING") :
    step jid s p =
      if some st.name ≠ s.prev_status_name then
        .cont
          { s with status := st, exception_count := 0, interval := 2,
                   prev_status_name := some st.name }
          (some { job_id := jid, text := st.name, est := .num 0,
                  value := st.value })
      else .cont { s with status := st, exception_count := 0 } none := by
  obtain ⟨sR, qpR, qiR, smR⟩ := p
  dsimp only at hp
  subst hp
  by_cases h : some st.name = s.prev_status_name
  · simp [step, tryBody, h, hq]
  · simp [step, tryBody, h, hq, hr]

/-- C2: once the observed job status is DONE, CANCELLED or ERROR, the monitor
terminates.  From a state whose status is terminal the loop performs no
status query and emits no update at all; and when the status query of a
poll
returns a terminal status, the run finishes within that same iteration:
exactly one query is performed, at most one update (the one announcing the
terminal transition) is emitted, and the remaining polls are never
consumed. -/
theorem monitor_stops_on_terminal (jid : String) (s : CheckerState)
    (polls rest : List PollEnv) (p : PollEnv) (st : JobStatus) :
    (s.status.name ∈ terminalNames → runFrom jid s polls = .finished [] 0) ∧
    (s.status.name ∉ terminalNames → p.statusR = .ok st →
      st.name ∈ terminalNames →
      ∃ us, runFrom jid s (p :: rest) = .finished us 1 ∧ us.length ≤ 1) := by
  constructor
  · exact runFrom_terminal jid s polls
  · intro hterm hp hst
    have hq : st.name ≠ "QUEUED" := by
      cases st <;> simp_all [JobStatus.name, terminalNames]
    have hr : st.name ≠ "RUNNING" := by
      cases st <;> simp_all [JobStatus.name, terminalNames]
    rw [runFrom_cons, if_neg hterm, step_ok_other jid s p st hp hq hr]
    by_cases hprev : some st.name = s.prev_status_name
    · refine ⟨[], ?_, by simp⟩
      rw [if_neg (not_not_intro hprev)]
      show RunResult.prepend none
        (runFrom jid { s with status := st, exception_count := 0 } rest) = _
      rw [runFrom_terminal jid _ rest hst]
      rfl
    · refine ⟨[{ job_id := jid, text := st.name, est := .num 0,
                 value := st.value }], ?_, by simp⟩
      rw [if_pos hprev]
      show RunResult.prepend
        (some { job_id := jid, text := st.name, est := .num 0, value := st.value })
        (runFrom jid
          { s with status := st, exception_count := 0, interval := 2,
                   prev_status_name := some st.name } rest) = _
      rw [runFrom_terminal jid _ rest hst]
      rfl

/-- Witness for C2: from a DONE state no poll is consumed; a RUNNING monitor
observing DONE finishes after that single query. -/
theorem monitor_stops_on_terminal_witness :
    (runFrom "job1" (initState .DONE) [raiseEnv] = .finished [] 0) ∧
    (∃ us, runFrom "job1" (initState .RUNNING)
        [{ statusR := .ok .DONE, queuePosR := .ok none,
           queueInfoR := .ok none, schedModeR := .ok none }] =
          .finished us 1 ∧ us.length ≤ 1) :=
  ⟨(monitor_stops_on_terminal "job1" (initState .DONE) [raiseEnv] []
      raiseEnv .DONE).1 (by decide),
   (monitor_stops_on_terminal "job1" (initState .RUNNING) [] []
      { statusR := .ok .DONE, queuePosR := .ok none,
        queueInfoR := .ok none, schedModeR := .ok none } .DONE).2
     (by decide) rfl (by decide)⟩

set_option maxHeartbeats 1600000 in
/-- Counterexample to C3 as stated: from INITIALIZING the monitor observes
RUNNING (emitting one update) and then QUEUED — a status change since the
previous emission — yet no second update is emitted, because the QUEUED
branch emits only when the queue position changed (here it stays `None`, its
initial previously-recorded value).  The final state shows the observed
status did change to QUEUED while the update list still has a single
entry. -/
theorem monitor_update_skipped_cex :
    job_checker "job1" .INITIALIZING [runningEnv, quietQueuedEnv] =
      .outOfPolls
        [{ job_id := "job1", text := "RUNNING", est := .num 0,
           value := "job is actively running" }]
        { status := .QUEUED, prev_status_name := some "RUNNING",
          prev_queue_pos := none, interval := 2, exception_count := 0,
          prev_est_time := "" } ∧
    JobStatus.QUEUED ≠ JobStatus.RUNNING := by
  constructor
  · decide
  · decide

/-- C3 amended: on a poll whose remote queries succeed, an update is emitted
exactly when either the observed status is QUEUED and the queue position
differs from the previously recorded one, or the observed status is
non-QUEUED and its name differs from the last *emitted* non-QUEUED status
name.  In particular, a status change into QUEUED with an unchanged queue
position, and a change back to the last emitted non-QUEUED status, emit
nothing. -/
theorem monitor_update_emission (jid : String) (s : CheckerState) (p : PollEnv)
    (st : JobStatus) (qp : Option Nat) (qi : Option QueueInfo)
    (md : Option String) :
    (p.statusR = .ok .QUEUED → p.queuePosR = .ok qp → p.queueInfoR = .ok qi →
      ((step jid s p).emitsUpdate = true ↔ qp ≠ s.prev_queue_pos)) ∧
    (p.statusR = .ok .RUNNING → p.schedModeR = .ok md →
      ((step jid s p).emitsUpdate = true ↔
        some "RUNNING" ≠ s.prev_status_name)) ∧
    (p.statusR = .ok st → st.name ≠ "QUEUED" → st.name ≠ "RUNNING" →
      ((step jid s p).emitsUpdate = true ↔
        some st.name ≠ s.prev_status_name)) := by
  refine ⟨?_, ?_, ?_⟩
  · intro hp hqp hqi
    rw [step_ok_queued jid s p qp qi hp hqp hqi]
    by_cases h : qp = s.prev_queue_pos
    · simp [h, StepOut.emitsUpdate]
    · simp [h, StepOut.emitsUpdate]
  · intro hp hm
    rw [step_ok_running jid s p md hp hm]
    by_cases h : some "RUNNING" = s.prev_status_name
    · simp [h, StepOut.emitsUpdate]
    · simp [h, StepOut.emitsUpdate]
  · intro hp hq hr
    rw [step_ok_other jid s p st hp hq hr]
    by_cases h : some st.name = s.prev_status_name
    · simp [h, StepOut.emitsUpdate]
    · simp [h, StepOut.emitsUpdate]

/-- Witness for the amended C3 at concrete inputs: a quiet QUEUED poll with
unchanged (None) position does not emit. -/
theorem monitor_update_emission_witness :
    (step "job1" (initState .INITIALIZING) quietQueuedEnv).emitsUpdate = true ↔
      (none : Option Nat) ≠ (initState .INITIALIZING).prev_queue_pos :=
  (monitor_update_emission "job1" (initState .INITIALIZING) quietQueuedEnv
    .QUEUED none none none).1 rfl rfl rfl

set_option maxHeartbeats 1600000 in
/-- Counterexample to C4 as stated: after QUEUED at position 10 (interval
becomes 10), then RUNNING (interval back to 2), the monitor observes QUEUED
at position 10 again — but because the position equals the previously
recorded one, the interval stays 2 instead of becoming
`max(queue_position, 2) = 10` as the claim requires for every QUEUED
observation. -/
theorem monitor_interval_cex :
    job_checker "job1" .INITIALIZING [queuedAt10Env, runningEnv, queuedAt10Env] =
      .outOfPolls
        [{ job_id := "job1", text := "QUEUED (10)", est := .str "",
           value := "job is queued" },
         { job_id := "job1", text := "RUNNING", est := .num 0,
           value := "job is actively running" }]
        { status := .QUEUED, prev_status_name := some "RUNNING",
          prev_queue_pos := some 10, interval := 2, exception_count := 0,
          prev_est_time := "" } ∧
    (2 : Nat) ≠ queuedInterval (some 10) := by
  constructor
  · decide
  · decide

/-- C4 amended: the polling interval starts at 2 seconds; on a poll whose
queries succeed it becomes `max(queue_position, 2)` (2 when the position is
unknown) exactly when QUEUED is observed with a *changed* queue position, it
returns to 2 exactly when a non-QUEUED status differing from the last emitted
non-QUEUED status name is observed, and it is left unchanged otherwise. -/
theorem monitor_interval_rule (jid : String) (s : CheckerState) (p : PollEnv)
    (st : JobStatus) (qp : Option Nat) (qi : Option QueueInfo)
    (md : Option String) :
    (initState st).interval = 2 ∧
    (p.statusR = .ok .QUEUED → p.queuePosR = .ok qp → p.queueInfoR = .ok qi →
      (step jid s p).stateInterval =
        if qp ≠ s.prev_queue_pos then queuedInterval qp else s.interval) ∧
    (p.statusR = .ok .RUNNING → p.schedModeR = .ok md →
      (step jid s p).stateInterval =
        if some "RUNNING" ≠ s.prev_status_name then 2 else s.interval) ∧
    (p.statusR = .ok st → st.name ≠ "QUEUED" → st.name ≠ "RUNNING" →
      (step jid s p).stateInterval =
        if some st.name ≠ s.prev_status_name then 2 else s.interval) := by
  refine ⟨rfl, ?_, ?_, ?_⟩
  · intro hp hqp hqi
    rw [step_ok_queued jid s p qp qi hp hqp hqi]
    by_cases h : qp = s.prev_queue_pos
    · simp [h, StepOut.stateInterval]
    · simp [h, StepOut.stateInterval]
  · intro hp hm
    rw [step_ok_running jid s p md hp hm]
    by_cases h : some "RUNNING" = s.prev_status_name
    · simp [h, StepOut.stateInterval]
    · simp [h, StepOut.stateInterval]
  · intro hp hq hr
    rw [step_ok_other jid s p st hp hq hr]
    by_cases h : some st.name = s.prev_status_name
    · simp [h, StepOut.stateInterval]
    · simp [h, StepOut.stateInterval]

/-- Witness for the amended C4 at concrete inputs: observing QUEUED at
position 10 with a changed position sets the interval to
`queuedInterval (some 10) = 10`. -/
theorem monitor_interval_rule_witness :
    (step "job1" (initState .INITIALIZING) queuedAt10Env).stateInterval =
      if (some 10 : Option Nat) ≠ (initState .INITIALIZING).prev_queue_pos
      then queuedInterval (some 10) else (initState .INITIALIZING).interval :=
  (monitor_interval_rule "job1" (initState .INITIALIZING) queuedAt10Env
    .QUEUED (some 10) none none).2.1 rfl rfl rfl

/-- C5: every exception raised by a remote query inside the polling loop body
is caught by the `except` handler of `_job_checker` and never propagated: when the
try-block raises, the iteration either continues silently with the
consecutive-failure counter incremented (whenever the incremented counter is
not 5 — in particular after up to 4 consecutive failures, and always right
after a successful status query reset it to 0), or emits the single "could
not query job" report and terminates the monitor (when the counter reaches
exactly 5). -/
theorem monitor_catches_exceptions (jid : String) (s : CheckerState)
    (p : PollEnv) (s' : CheckerState)
    (herr : tryBody jid s p = .error s') :
    (s'.exception_count + 1 ≠ 5 →
      step jid s p =
        .cont { s' with exception_count := s'.exception_count + 1 } none) ∧
    (s'.exception_count + 1 = 5 →
      step jid s p = .exit (couldNotQueryUpdate jid)) := by
  constructor
  · intro h
    simp [step, herr, h]
  · intro h
    simp [step, herr, h]

/-- Witness for C5: a raising poll from a fresh RUNNING state is swallowed,
leaving the monitor running with failure counter 1 and nothing emitted. -/
theorem monitor_catches_exceptions_witness :
    step "job1" (initState .RUNNING) raiseEnv =
      .cont
        { status := .RUNNING, prev_status_name := none, prev_queue_pos := none,
          interval := 2, exception_count := 1, prev_est_time := "" } none :=
  (monitor_catches_exceptions "job1" (initState .RUNNING) raiseEnv
    (initState .RUNNING) rfl).1 (by decide)

/-- C9: in the QUEUED branch, when the queue position changed but the queue
info carries no estimated start time (either `queue_info` is absent or its
`estimated_start_time` is), the emitted update carries the previously
remembered estimated-time string `prev_est_time` — the empty string when none
was ever computed, as in the initial state — and leaves that remembered
string unchanged, so the displayed estimate can be stale rather than 0 or
absent. -/
theorem monitor_stale_estimate (jid : String) (s : CheckerState) (p : PollEnv)
    (qp : Option Nat) (qi : Option QueueInfo)
    (hp : p.statusR = .ok .QUEUED) (hqp : p.queuePosR = .ok qp)
    (hqi : p.queueInfoR = .ok qi)
    (hchanged : qp ≠ s.prev_queue_pos)
    (hnoest :
      (match qi with
       | some i => i.estimated_start_time
       | none => none) = none) :
    step jid s p =
      .cont
        { s with status := .QUEUED, exception_count := 0,
                 prev_est_time := s.prev_est_time,
                 interval := queuedInterval qp, prev_queue_pos := qp }
        (some { job_id := jid, text := "QUEUED (" ++ posStr qp ++ ")",
                est := .str s.prev_est_time,
                value := JobStatus.QUEUED.value }) ∧
    (initState .QUEUED).prev_est_time = "" := by
  have hest : estOf s qi = s.prev_est_time := by
    cases qi with
    | none => rfl
    | some i =>
      dsimp only at hnoest
      simp [estOf, hnoest]
  rw [step_ok_queued jid s p qp qi hp hqp hqi, if_pos hchanged, hest]
  exact ⟨rfl, rfl⟩

/-- Witness for C9: a monitor that remembered the estimate string "in 30"
re-emits it verbatim when the queue position moves from 5 to 3 with no fresh
estimated start time available. -/
theorem monitor_stale_estimate_witness :
    step "job1"
      { status := .QUEUED, prev_status_name := none, prev_queue_pos := some 5,
        interval := 5, exception_count := 0, prev_est_time := "in 30" }
      { statusR := .ok .QUEUED, queuePosR := .ok (some 3),
        queueInfoR := .ok (some { estimated_start_time := none }),
        schedModeR := .ok none } =
      .cont
        { status := .QUEUED, prev_status_name := none,
          prev_queue_pos := some 3, interval := queuedInterval (some 3),
          exception_count := 0, prev_est_time := "in 30" }
        (some { job_id := "job1", text := "QUEUED (" ++ posStr (some 3) ++ ")",
                est := .str "in 30", value := JobStatus.QUEUED.value }) ∧
    (initState .QUEUED).prev_est_time = "" :=
  monitor_stale_estimate "job1"
    { status := .QUEUED, prev_status_name := none, prev_queue_pos := some 5,
      interval := 5, exception_count := 0, prev_est_time := "in 30" }
    { statusR := .ok .QUEUED, queuePosR := .ok (some 3),
      queueInfoR := .ok (some { estimated_start_time := none }),
      schedModeR := .ok none }
    (some 3) (some { estimated_start_time := none }) rfl rfl rfl (by decide) rfl

/-- C10: when the monitor observes a status change to RUNNING and the job
reports a non-empty scheduling mode, the display text of the emitted update
is the
status name followed by a space and the first character of the mode
uppercased in
square brackets; with an absent or empty scheduling mode it is the bare
status name; and every update emitted by the non-QUEUED branch carries the
integer 0 in its estimated-time field. -/
theorem monitor_running_display (jid : String) (s : CheckerState) (p : PollEnv)
    (st : JobStatus) (m : String) (s' : CheckerState) (u : Update) :
    (p.statusR = .ok .RUNNING → p.schedModeR = .ok (some m) → m ≠ "" →
      some "RUNNING" ≠ s.prev_status_name →
      step jid s p =
        .cont
          { s with status := .RUNNING, exception_count := 0, interval := 2,
                   prev_status_name := some "RUNNING" }
          (some { job_id := jid,
                  text := "RUNNING" ++ " [" ++ (m.front.toUpper).toString ++ "]",
                  est := .num 0, value := JobStatus.RUNNING.value })) ∧
    ((p.schedModeR = .ok none ∨ p.schedModeR = .ok (some "")) →
      p.statusR = .ok .RUNNING → some "RUNNING" ≠ s.prev_status_name →
      step jid s p =
        .cont
          { s with status := .RUNNING, exception_count := 0, interval := 2,
                   prev_status_name := some "RUNNING" }
          (some { job_id := jid, text := "RUNNING", est := .num 0,
                  value := JobStatus.RUNNING.value })) ∧
    (p.statusR = .ok st → st.name ≠ "QUEUED" →
      step jid s p = .cont s' (some u) → u.est = .num 0) := by
  refine ⟨?_, ?_, ?_⟩
  · intro hp hm hm0 hprev
    rw [step_ok_running jid s p (some m) hp hm, if_pos hprev]
    simp [runningMsg, hm0]
  · intro hm hp hprev
    cases hm with
    | inl hm =>
      rw [step_ok_running jid s p none hp hm, if_pos hprev]
      simp [runningMsg]
    | inr hm =>
      rw [step_ok_running jid s p (some "") hp hm, if_pos hprev]
      simp [runningMsg]
  · intro hp hq hstep
    by_cases hr : st = .RUNNING
    · subst hr
      cases hsm : p.schedModeR with
      | ok md =>
        rw [step_ok_running jid s p md hp hsm] at hstep
        by_cases hprev : some "RUNNING" = s.prev_status_name
        · rw [if_neg (not_not_intro hprev)] at hstep
          injection hstep with h1 h2
          cases h2
        · rw [if_pos hprev] at hstep
          injection hstep with h1 h2
          injection h2 with h3
          rw [← h3]
      | error e =>
        obtain ⟨sR, qpR, qiR, smR⟩ := p
        dsimp only at hp hsm
        subst hp; subst hsm
        by_cases hprev : some "RUNNING" = s.prev_status_name
        · simp [step, tryBody, JobStatus.name, hprev] at hstep
        · simp [step, tryBody, JobStatus.name, hprev] at hstep
    · have hrn : st.name ≠ "RUNNING" := by
        cases st <;> simp_all [JobStatus.name]
      rw [step_ok_other jid s p st hp hq hrn] at hstep
      by_cases hprev : some st.name = s.prev_status_name
      · rw [if_neg (not_not_intro hprev)] at hstep
        injection hstep with h1 h2
        cases h2
      · rw [if_pos hprev] at hstep
        injection hstep with h1 h2
        injection h2 with h3
        rw [← h3]

/-- Witness for C10: a RUNNING transition with scheduling mode "fairshare"
produces the display text "RUNNING [F]" with estimated time 0. -/
theorem monitor_running_display_witness :
    step "job1" (initState .INITIALIZING)
      { statusR := .ok .RUNNING, queuePosR := .ok none, queueInfoR := .ok none,
        schedModeR := .ok (some "fairshare") } =
      .cont
        { status := .RUNNING, prev_status_name := some "RUNNING",
          prev_queue_pos := none, interval := 2, exception_count := 0,
          prev_est_time := "" }
        (some { job_id := "job1",
                text := "RUNNING" ++ " [" ++
                  ("fairshare".front.toUpper).toString ++ "]",
                est := .num 0, value := JobStatus.RUNNING.value }) ∧
    "RUNNING" ++ " [" ++ ("fairshare".front.toUpper).toString ++ "]" =
      "RUNNING [F]" :=
  ⟨(monitor_running_display "job1" (initState .INITIALIZING)
      { statusR := .ok .RUNNING, queuePosR := .ok none, queueInfoR := .ok none,
        schedModeR := .ok (some "fairshare") }
      .DONE "fairshare" (initState .DONE)
      (couldNotQueryUpdate "job1")).1 rfl rfl (by decide) (by decide),
   by decide⟩

theorem splitChunks_flatten {α : Type} (m : Nat) (l : List α) :
    (splitChunks m l).flatten = l := by
  induction m, l using splitChunks.induct with
  | case1 m => simp [splitChunks]
  | case2 l => simp [splitChunks]
  | case3 m x xs ih =>
    rw [splitChunks]
    simp only [List.flatten_cons, ih]
    simp

theorem splitChunks_length {α : Type} (m : Nat) (l : List α) (hl : l ≠ []) :
    (splitChunks (m + 1) l).length = (l.length + m) / (m + 1) := by
  have H : ∀ (n : Nat) (l : List α), l.length = n → l ≠ [] →
      (splitChunks (m + 1) l).length = (l.length + m) / (m + 1) := by
    intro n
    induction n using Nat.strong_induction_on with
    | _ n ih =>
      intro l hn hl
      cases l with
      | nil => exact absurd rfl hl
      | cons x xs =>
        rw [splitChunks]
        by_cases hle : xs.length ≤ m
        · have hdrop : xs.drop m = [] := by
            rw [List.drop_eq_nil_iff]
            omega
          rw [hdrop, splitChunks]
          simp only [List.length_cons, List.length_nil]
          have h1 : (xs.length + 1 + m) / (m + 1) = 1 :=
            Nat.div_eq_of_lt_le (by omega) (by omega)
          omega
        · have hne : xs.drop m ≠ [] := by
            rw [Ne, List.drop_eq_nil_iff]
            omega
          have hlen : (xs.drop m).length < n := by
            rw [← hn]
            simp
            omega
          rw [List.length_cons,
            ih (xs.drop m).length hlen (xs.drop m) rfl hne]
          simp only [List.length_drop, List.length_cons]
          have h2 : xs.length + 1 + m = (xs.length - m + m) + (m + 1) := by
            omega
          rw [h2, Nat.add_div_right _ (by omega : 0 < m + 1)]

  exact H l.length l rfl hl

theorem splitChunks_size_le {α : Type} (m : Nat) (l : List α) :
    ∀ c ∈ splitChunks (m + 1) l, c.length ≤ m + 1 := by
  have H : ∀ (n : Nat) (l : List α), l.length = n →
      ∀ c ∈ splitChunks (m + 1) l, c.length ≤ m + 1 := by
    intro n
    induction n using Nat.strong_induction_on with
    | _ n ih =>
      intro l hn c hc
      cases l with
      | nil => simp [splitChunks] at hc
      | cons x xs =>
        rw [splitChunks] at hc
        rcases List.mem_cons.mp hc with h | h
        · subst h
          simp
        · by_cases hd : xs.length ≤ m
          · have hdrop : xs.drop m = [] := by
              rw [List.drop_eq_nil_iff]
              omega
            rw [hdrop, splitChunks] at h
            simp at h
          · have hlen : (xs.drop m).length < n := by
              rw [← hn]
              simp
              omega
            exact ih (xs.drop m).length hlen (xs.drop m) rfl c h
  exact H l.length l rfl

theorem statusPrecedence_le_six (s : JobStatus) : statusPrecedence s ≤ 6 := by
  cases s <;> simp [statusPrecedence]

theorem statusPrecedence_injective (a b : JobStatus)
    (h : statusPrecedence a = statusPrecedence b) : a = b := by
  cases a <;> cases b <;> simp_all [statusPrecedence]

theorem pickStatus_eq_or (a b : JobStatus) :
    pickStatus a b = a ∨ pickStatus a b = b := by
  unfold pickStatus
  split
  · exact Or.inr rfl
  · exact Or.inl rfl

theorem statusPrecedence_pickStatus (a b : JobStatus) :
    statusPrecedence (pickStatus a b) =
      max (statusPrecedence a) (statusPrecedence b) := by
  unfold pickStatus
  split <;> omega

theorem foldl_pickStatus_mem (xs : List JobStatus) :
    ∀ acc, xs.foldl pickStatus acc = acc ∨ xs.foldl pickStatus acc ∈ xs := by
  induction xs with
  | nil =>
    intro acc
    exact Or.inl rfl
  | cons x xs ih =>
    intro acc
    rw [List.foldl_cons]
    rcases ih (pickStatus acc x) with h | h
    · rcases pickStatus_eq_or acc x with h2 | h2
      · exact Or.inl (h.trans h2)
      · exact Or.inr (by rw [h, h2]; exact List.mem_cons_self x xs)
    · exact Or.inr (List.mem_cons_of_mem x h)

theorem foldl_pickStatus_ub (xs : List JobStatus) :
    ∀ acc,
      statusPrecedence acc ≤ statusPrecedence (xs.foldl pickStatus acc) ∧
      ∀ s ∈ xs, statusPrecedence s ≤ statusPrecedence (xs.foldl pickStatus acc) := by
  induction xs with
  | nil =>
    intro acc
    exact ⟨le_refl _, by simp⟩
  | cons x xs ih =>
    intro acc
    obtain ⟨h1, h2⟩ := ih (pickStatus acc x)
    have hpick := statusPrecedence_pickStatus acc x
    rw [List.foldl_cons]
    constructor
    · omega
    · intro s hs
      rcases List.mem_cons.mp hs with h | h
      · subst h
        omega
      · exact h2 s h

/-- C6: the aggregated status of a (nonempty) composite job follows the
precedence rule `ERROR > CANCELLED > RUNNING > QUEUED > VALIDATING >
INITIALIZING > DONE`, highest wins: it is DONE exactly when every sub-job is
DONE; it is ERROR whenever some sub-job errored; it is CANCELLED whenever
some sub-job was cancelled and none errored; in general it is a
maximum-precedence status among the sub-jobs, as on the examples of the
spec. -/
theorem composite_status_precedence (l : List JobStatus) (hne : l ≠ []) :
    (compositeStatus l = .DONE ↔ ∀ s ∈ l, s = .DONE) ∧
    (.ERROR ∈ l → compositeStatus l = .ERROR) ∧
    (.CANCELLED ∈ l → .ERROR ∉ l → compositeStatus l = .CANCELLED) ∧
    compositeStatus l ∈ l ∧
    (∀ s ∈ l, statusPrecedence s ≤ statusPrecedence (compositeStatus l)) ∧
    compositeStatus [.DONE, .ERROR] = .ERROR ∧
    compositeStatus [.DONE, .CANCELLED] = .CANCELLED ∧
    compositeStatus [.DONE, .DONE] = .DONE ∧
    compositeStatus [.RUNNING, .QUEUED] = .RUNNING := by
  obtain ⟨x, xs, rfl⟩ : ∃ x xs, l = x :: xs := by
    cases l with
    | nil => exact absurd rfl hne
    | cons x xs => exact ⟨x, xs, rfl⟩
  have hmem : compositeStatus (x :: xs) ∈ x :: xs := by
    show xs.foldl pickStatus x ∈ x :: xs
    rcases foldl_pickStatus_mem xs x with h | h
    · rw [h]
      exact List.mem_cons_self x xs
    · exact List.mem_cons_of_mem x h
  have hub : ∀ s ∈ x :: xs,
      statusPrecedence s ≤ statusPrecedence (compositeStatus (x :: xs)) := by
    intro s hs
    obtain ⟨h1, h2⟩ := foldl_pickStatus_ub xs x
    rcases List.mem_cons.mp hs with h | h
    · subst h
      exact h1
    · exact h2 s h
  refine ⟨?_, ?_, ?_, hmem, hub, rfl, rfl, rfl, rfl⟩
  · constructor
    · intro h s hs
      have := hub s hs
      rw [h] at this
      simp [statusPrecedence] at this
      cases s <;> simp_all [statusPrecedence]
    · intro h
      exact h _ hmem
  · intro herr
    have h6 := hub .ERROR herr
    have hle := statusPrecedence_le_six (compositeStatus (x :: xs))
    refine statusPrecedence_injective _ _ ?_
    have he : statusPrecedence .ERROR = 6 := rfl
    rw [he] at h6 ⊢
    omega
  · intro hcan herr
    have h5 := hub .CANCELLED hcan
    have hne2 : compositeStatus (x :: xs) ≠ .ERROR := by
      intro h
      exact herr (h ▸ hmem)
    simp [statusPrecedence] at h5
    cases h : compositeStatus (x :: xs) <;> rw [h] at h5 hne2 <;>
      simp_all [statusPrecedence]

/-- Witness for C6 on the `[DONE, ERROR]` example of the spec: the aggregate is
ERROR and is itself one of the sub-job statuses. -/
theorem composite_status_precedence_witness :
    compositeStatus [JobStatus.DONE, JobStatus.ERROR] = JobStatus.ERROR ∧
    compositeStatus [JobStatus.DONE, JobStatus.ERROR] ∈
      [JobStatus.DONE, JobStatus.ERROR] :=
  ⟨(composite_status_precedence [JobStatus.DONE, JobStatus.ERROR]
      (by decide)).2.1 (by decide),
   (composite_status_precedence [JobStatus.DONE, JobStatus.ERROR]
      (by decide)).2.2.2.1⟩

/-- C7: for every nonempty ordered sequence of work items and maximum chunk
size M ≥ 1, the splitter produces exactly `ceil(N/M)` contiguous chunks, each
of size at most M, whose in-order concatenation reproduces the original
sequence exactly; the empty sequence (N = 0) is an `InvalidInput` error. -/
theorem splitter_partition {α : Type} (l : List α) (m : Nat) (hm : 1 ≤ m) :
    (l ≠ [] →
      split_circuits l m = .ok (splitChunks m l) ∧
      (splitChunks m l).length = (l.length + m - 1) / m ∧
      (splitChunks m l).flatten = l ∧
      ∀ c ∈ splitChunks m l, c.length ≤ m) ∧
    (l = [] → split_circuits l m = .error "InvalidInput") := by
  obtain ⟨m, rfl⟩ : ∃ m', m = m' + 1 := ⟨m - 1, by omega⟩
  constructor
  · intro hl
    refine ⟨?_, ?_, splitChunks_flatten _ _, splitChunks_size_le _ _⟩
    · simp [split_circuits, hl]
    · rw [splitChunks_length _ _ hl]
      congr 1
  · intro hl
    subst hl
    rfl

/-- Witness for C7: splitting three items with chunk size 2 gives 2 chunks of
size at most 2 concatenating back to the input, and the empty input is an
`InvalidInput` error. -/
theorem splitter_partition_witness :
    (split_circuits [10, 20, 30] 2 = .ok (splitChunks 2 [10, 20, 30]) ∧
      (splitChunks 2 [10, 20, 30]).length = 2 ∧
      (splitChunks 2 [10, 20, 30]).flatten = [10, 20, 30] ∧
      ∀ c ∈ splitChunks 2 [10, 20, 30], c.length ≤ 2) ∧
    split_circuits ([] : List Nat) 2 = .error "InvalidInput" :=
  ⟨(splitter_partition [10, 20, 30] 2 (by decide)).1 (by decide),
   (splitter_partition ([] : List Nat) 2 (by decide)).2 rfl⟩

/-- C8: in the 4-items-split-2-and-2 scenario where the second chunk failed
entirely, `result(partial=True)` yields exactly 4 per-item results — the
first 2 marked success, the last 2 marked failure — with the aggregate
success flag false, while `result(partial=False)` fails with a
`JobFailureError` whose message mentions "Circuits 2-3". -/
theorem composite_partial_result_shape :
    composite_result true c8SubJobs =
      .ok { success := false,
            results := [{ success := true }, { success := true },
                        { success := false }, { success := false }] } ∧
    composite_result false c8SubJobs =
      .error ("JobFailureError: " ++ "Circuits 2-3" ++ ": Job job1 failed: " ++
        "Job failed. Error code: 1234") := by
  constructor
  · decide
  · decide
